import Mathlib

/-!
# King Collapse — verification of the core rules engine

A shallow embedding of the core game logic of the King Collapse repository
(`js/gameLogic.js`, the move-application part of `js/main.js`, and
`js/ai.js`), together with theorems settling the frozen claims about the
Collapse Resolver, the move generator, the win-condition checker and the
move selector.

Conventions of the embedding:

* The JavaScript `boardState` 8x8 array of nullable piece ids is modelled
  as an association list from positions to piece ids (`Board`); absent key
  means `null`.
* The `pieces` object (string-keyed, insertion ordered) is modelled as a
  `List Piece` in insertion order; `findPiece` is `pieces[id]`,
  `erasePiece` is `delete pieces[id]`, and `updatePiece` is an in-place
  field mutation of the stored object.
* `triggerCollapse` is `async` only for animation sequencing; its logic is
  sequential.  It is modelled with an explicit fuel argument: `none`
  means the recursion did not complete within the given budget (or the
  JavaScript would have thrown, e.g. on an out-of-range history index or
  a board id with no backing piece).  State mutation is modelled by
  returning the updated state next to the returned animation-change list;
  calls of `ui.showMessage` are collected in a `Msg` list.
* Machine numbers (rows, columns, history indices) are `Int`.
-/

/-- A board position, as the `{row, col}` records of the source. -/
structure Pos where
  row : Int
  col : Int
deriving DecidableEq, Repr

/-- The two players, `'r'` and `'b'` in the source. -/
inductive Player where
  | r : Player
  | b : Player
deriving DecidableEq, Repr

/-- The opposing player. -/
def Player.other : Player → Player
  | .r => .b
  | .b => .r

/-- A piece record: `{ id, player, isKing, history }` of `gameLogic.js`. -/
structure Piece where
  id : String
  player : Player
  isKing : Bool
  history : List Pos
deriving DecidableEq, Repr

/-- The board occupancy map (`boardState`): position to occupying piece id,
absent key standing for `null`. -/
def Board := List (Pos × String)
deriving DecidableEq, Repr

/-- `boardState[p.row][p.col]` as a lookup. -/
def boardGet : Board → Pos → Option String
  | [], _ => none
  | (q, pid) :: rest, p => if q = p then some pid else boardGet rest p

/-- `boardState[p.row][p.col] = v` (with `v = none` for `null`). -/
def boardSet (b : Board) (p : Pos) (v : Option String) : Board :=
  match v with
  | none => b.filter (fun e => e.1 ≠ p)
  | some pid => (p, pid) :: b.filter (fun e => e.1 ≠ p)

/-- `pieces[pieceId]` on the insertion-ordered piece collection. -/
def findPiece : List Piece → String → Option Piece
  | [], _ => none
  | p :: ps, pid => if p.id = pid then some p else findPiece ps pid

/-- `delete pieces[pieceId]`. -/
def erasePiece (ps : List Piece) (pid : String) : List Piece :=
  ps.filter (fun p => p.id ≠ pid)

/-- In-place mutation of the piece object stored under `pid` (the JS
`pieces[pid].field = ...`): a no-op when `pid` is absent, exactly as a JS
mutation of an already-detached object is invisible in `pieces`. -/
def updatePiece (ps : List Piece) (pid : String) (f : Piece → Piece) : List Piece :=
  ps.map (fun p => if p.id = pid then f p else p)

/-- The mutable state `triggerCollapse` operates on: the piece collection
and the board occupancy. -/
structure CState where
  pieces : List Piece
  board : Board
deriving DecidableEq, Repr

/-- The animation-change records returned by `triggerCollapse`:
`{type: 'move', pieceId, toRow, toCol}` and
`{type: 'remove', pieceId, player}`. -/
inductive Change where
  | move (pieceId : String) (toRow toCol : Int) : Change
  | remove (pieceId : String) (player : Player) : Change
deriving DecidableEq, Repr

/-- The `ui.showMessage` calls `triggerCollapse` makes, in order: the
capture message of the exhausted-history branch and the interference
message of the protected-square branch. -/
inductive Msg where
  | captureFailed (pieceId : String) : Msg
  | interference (pieceId : String) : Msg
deriving DecidableEq, Repr

/-- The exhausted-history branch of `triggerCollapse`
(`targetHistoryIndex < 0`, gameLogic.js lines 39-50): push a `remove`
change, vacate the current square if this piece holds it, delete the
piece. -/
def collapseCapture (st : CState) (piece : Piece) : Option (CState × List Change × List Msg) :=
  match piece.history.getLast? with
  | none => none
  | some cur =>
    let b := if boardGet st.board cur = some piece.id then boardSet st.board cur none else st.board
    some (⟨erasePiece st.pieces piece.id, b⟩,
          [Change.remove piece.id piece.player], [Msg.captureFailed piece.id])

/-- Tag a collapse result with the interference message shown before the
retry recursion (gameLogic.js lines 57-63). -/
def tagInterference (pieceId : String) :
    CState × List Change × List Msg → CState × List Change × List Msg
  | (st, ch, ms) => (st, ch, Msg.interference pieceId :: ms)

/-- The success branch onto a free (or self-occupied) square
(gameLogic.js lines 83-91): vacate the current square only if this piece
holds it, occupy the target, truncate the history to the target index. -/
def applyCollapseFree (st : CState) (pieceId : String) (cur tp : Pos) (idx : Int) : CState :=
  let b1 := if boardGet st.board cur = some pieceId then boardSet st.board cur none else st.board
  let b2 := boardSet b1 tp (some pieceId)
  ⟨updatePiece st.pieces pieceId (fun p => { p with history := p.history.take (idx.toNat + 1) }), b2⟩

/-- The success branch after a cascade freed the target
(gameLogic.js lines 76-82): the current square is vacated
unconditionally (line 78) from the position captured before the cascade,
and the history truncation reads the piece object as the cascade left
it. -/
def applyCollapseCascaded (st : CState) (pieceId : String) (cur tp : Pos) (idx : Int) : CState :=
  let b1 := boardSet st.board cur none
  let b2 := boardSet b1 tp (some pieceId)
  ⟨updatePiece st.pieces pieceId (fun p => { p with history := p.history.take (idx.toNat + 1) }), b2⟩

/-- Continuation of the cascade branch of `triggerCollapse` after the
occupying piece resolved (gameLogic.js lines 72-82): if the target is
still occupied, retry this piece one history step earlier; otherwise
complete the collapse move.  `tc` is the recursion at the remaining
fuel; `cur` and `tp` are the positions captured before the cascade. -/
def afterCascade (tc : String → Int → CState → Option Pos → Option (CState × List Change × List Msg))
    (pieceId : String) (idx : Int) (prot : Option Pos) (cur tp : Pos) :
    CState × List Change × List Msg → Option (CState × List Change × List Msg)
  | (st1, ch1, ms1) =>
    match boardGet st1.board tp with
    | some _ =>
      (tc pieceId (idx - 1) st1 prot).map (fun r => (r.1, ch1 ++ r.2.1, ms1 ++ r.2.2))
    | none =>
      some (applyCollapseCascaded st1 pieceId cur tp idx,
            ch1 ++ [Change.move pieceId tp.row tp.col], ms1)

/-- `triggerCollapse(pieceId, targetHistoryIndex, pieces, boardState, ui,
logger, protectedSquare)` of gameLogic.js (lines 28-94, the
retry-on-interference revision), with explicit fuel.  Returns the
updated state, the accumulated animation changes, and the
`ui.showMessage` calls; `none` when the fuel runs out or the JavaScript
would have thrown. -/
def triggerCollapse : Nat → String → Int → CState → Option Pos →
    Option (CState × List Change × List Msg)
  | 0, _, _, _, _ => none
  | n + 1, pieceId, targetHistoryIndex, st, protectedSquare =>
    match findPiece st.pieces pieceId with
    | none => some (st, [], [])
    | some piece =>
      if targetHistoryIndex < 0 then collapseCapture st piece
      else
        match piece.history.getLast?, piece.history.get? targetHistoryIndex.toNat with
        | some cur, some tp =>
          if protectedSquare = some tp then
            (triggerCollapse n pieceId (targetHistoryIndex - 1) st protectedSquare).map
              (tagInterference pieceId)
          else
            match boardGet st.board tp with
            | some occId =>
              if occId = pieceId then
                some (applyCollapseFree st pieceId cur tp targetHistoryIndex,
                      [Change.move pieceId tp.row tp.col], [])
              else
                match findPiece st.pieces occId with
                | none => none
                | some occ =>
                  (triggerCollapse n occId ((occ.history.length : Int) - 2) st protectedSquare).bind
                    (afterCascade (triggerCollapse n) pieceId targetHistoryIndex protectedSquare cur tp)
            | none =>
              some (applyCollapseFree st pieceId cur tp targetHistoryIndex,
                    [Change.move pieceId tp.row tp.col], [])
        | _, _ => none

/-- `isValidSquare(row, col)` of gameLogic.js. -/
def isValidSquare (row col : Int) : Bool :=
  0 ≤ row && row < 8 && 0 ≤ col && col < 8

/-- One entry of a `jumpedInfo` array:
`{ id, isGhost, jumpedHistoryIndex }`. -/
structure JumpedInfo where
  id : String
  isGhost : Bool
  jumpedHistoryIndex : Int
deriving DecidableEq, Repr

/-- A move record `{ endRow, endCol, jumpedInfo }`; `jumpedInfo` is `none`
for a regular move and `some` (always nonempty in generated moves) for a
jump. -/
structure Move where
  endRow : Int
  endCol : Int
  jumpedInfo : Option (List JumpedInfo)
deriving DecidableEq, Repr

/-- The candidate directions of `getPossibleMoves` (gameLogic.js lines
104-106): the two forward diagonals of the owner, extended for kings with
the remaining diagonals, de-duplicated. -/
def directionsFor (piece : Piece) : List (Int × Int) :=
  let base : List (Int × Int) :=
    match piece.player with
    | .r => [(-1, -1), (-1, 1)]
    | .b => [(1, -1), (1, 1)]
  if piece.isKing then
    base ++ ([((-1 : Int), (-1 : Int)), (-1, 1), (1, -1), (1, 1)].filter (fun d => d ∉ base))
  else base

/-- The `jumpedOnSquare` array built at a jump midpoint (gameLogic.js
lines 113-125): the current occupant as a real entry when it is an
opposing piece (a dangling board id makes the JS throw: `none`), then
every opposing piece holding the midpoint at a non-final history index as
a ghost entry, in piece-collection order. -/
def jumpedAtSquare (piece : Piece) (pieces : List Piece) (board : Board) (mid : Pos) :
    Option (List JumpedInfo) :=
  let realPart : Option (List JumpedInfo) :=
    match boardGet board mid with
    | none => some []
    | some rid =>
      match findPiece pieces rid with
      | none => none
      | some rp =>
        if rp.player ≠ piece.player then
          some [⟨rid, false, (rp.history.length : Int) - 1⟩]
        else some []
  realPart.map (fun real =>
    real ++ pieces.filterMap (fun op =>
      if op.player ≠ piece.player then
        match op.history.findIdx? (fun q => q = mid) with
        | some i =>
          if (i : Int) < (op.history.length : Int) - 1 then
            some ⟨op.id, true, (i : Int)⟩
          else none
        | none => none
      else none))

/-- The moves one direction contributes (gameLogic.js lines 108-142), as
the triple (real-jump bucket, ghost-jump bucket, regular bucket). -/
def dirCandidates (piece : Piece) (pieces : List Piece) (board : Board) (pos : Pos)
    (d : Int × Int) : Option (List Move × List Move × List Move) :=
  let midR := pos.row + d.1
  let midC := pos.col + d.2
  let endR := pos.row + 2 * d.1
  let endC := pos.col + 2 * d.2
  let jumps : Option (List Move × List Move) :=
    if isValidSquare endR endC && (boardGet board ⟨endR, endC⟩).isNone then
      (jumpedAtSquare piece pieces board ⟨midR, midC⟩).map (fun js =>
        if js.isEmpty then ([], [])
        else
          let mv : Move := ⟨endR, endC, some js⟩
          if js.any (fun j => !j.isGhost) then ([mv], []) else ([], [mv]))
    else some ([], [])
  jumps.map (fun jp =>
    (jp.1, jp.2,
      if isValidSquare midR midC && (boardGet board ⟨midR, midC⟩).isNone then
        [⟨midR, midC, none⟩] else []))

/-- Accumulate the three buckets over the direction list, in order. -/
def collectMoves (piece : Piece) (pieces : List Piece) (board : Board) (pos : Pos) :
    List (Int × Int) → Option (List Move × List Move × List Move)
  | [] => some ([], [], [])
  | d :: ds =>
    match dirCandidates piece pieces board pos d with
    | none => none
    | some cur =>
      match collectMoves piece pieces board pos ds with
      | none => none
      | some rest => some (cur.1 ++ rest.1, cur.2.1 ++ rest.2.1, cur.2.2 ++ rest.2.2)

/-- `getPossibleMoves(pieceId, pieces, boardState)` of gameLogic.js
(lines 96-148): empty for an unknown piece id; otherwise the real-jump
bucket alone when it is nonempty (mandatory capture), else the ghost
jumps followed by the regular moves. -/
def getPossibleMoves (pieceId : String) (pieces : List Piece) (board : Board) :
    Option (List Move) :=
  match findPiece pieces pieceId with
  | none => some []
  | some piece =>
    match piece.history.getLast? with
    | none => none
    | some pos =>
      match collectMoves piece pieces board pos (directionsFor piece) with
      | none => none
      | some (realJ, ghostJ, regular) =>
        some (if realJ.isEmpty then ghostJ ++ regular else realJ)

/-- `currentPlayerPieces.some(p => getPossibleMoves(p.id, ...).length > 0)`
with the JS short-circuit (a throwing call aborts the whole check). -/
def anyHasMoves : List Piece → List Piece → Board → Option Bool
  | [], _, _ => some false
  | p :: rest, pieces, board =>
    match getPossibleMoves p.id pieces board with
    | none => none
    | some ms => if ms.isEmpty then anyHasMoves rest pieces board else some true

/-- `checkWinCondition(pieces, turn, boardState)` of gameLogic.js (lines
150-163).  The inner `Option Player` is the returned winner (`none` for
`null`); the outer `Option` is the usual crash propagation. -/
def checkWinCondition (pieces : List Piece) (turn : Player) (board : Board) :
    Option (Option Player) :=
  let redPieces := pieces.filter (fun p => p.player = Player.r)
  let blackPieces := pieces.filter (fun p => p.player = Player.b)
  if redPieces.length = 0 then some (some Player.b)
  else if blackPieces.length = 0 then some (some Player.r)
  else
    match anyHasMoves (if turn = Player.r then redPieces else blackPieces) pieces board with
    | none => none
    | some hasMoves => some (if hasMoves then none else some turn.other)

/-- `initGame()` of gameLogic.js (lines 8-26): the 12-per-side starting
layout on dark squares, black in rows 0-2, red in rows 5-7, ids numbered
in row-major order. -/
def initGame : CState :=
  let step := fun (acc : List Piece × Board × Nat × Nat) (rc : Nat × Nat) =>
    let r := rc.1
    let c := rc.2
    if (r + c) % 2 = 1 then
      if r < 3 then
        let pid := "b" ++ toString acc.2.2.2
        (acc.1 ++ [⟨pid, Player.b, false, [⟨(r : Int), (c : Int)⟩]⟩],
         boardSet acc.2.1 ⟨(r : Int), (c : Int)⟩ (some pid), acc.2.2.1, acc.2.2.2 + 1)
      else if r > 4 then
        let pid := "r" ++ toString acc.2.2.1
        (acc.1 ++ [⟨pid, Player.r, false, [⟨(r : Int), (c : Int)⟩]⟩],
         boardSet acc.2.1 ⟨(r : Int), (c : Int)⟩ (some pid), acc.2.2.1 + 1, acc.2.2.2)
      else acc
    else acc
  let cells := (List.range 8).flatMap (fun r => (List.range 8).map (fun c => (r, c)))
  let res := cells.foldl step ([], [], 1, 1)
  ⟨res.1, res.2.1⟩

/-- The orchestrator state of main.js: the game state plus whose turn it
is and, during a multi-jump, the piece that must continue
(`selectedPieceId` with `isMultiJump`). -/
structure GState where
  pieces : List Piece
  board : Board
  turn : Player
  multi : Option String
deriving DecidableEq, Repr

/-- Run the per-jump collapses of `movePiece` (main.js lines 112-118) in
order, threading the mutated state; the animation changes are consumed
by the UI only. -/
def processJumps (fuel : Nat) : List JumpedInfo → CState → Pos → Option CState
  | [], st, _ => some st
  | j :: rest, st, prot =>
    match triggerCollapse fuel j.id (j.jumpedHistoryIndex - 1) st (some prot) with
    | none => none
    | some (st', _, _) => processJumps fuel rest st' prot

/-- `movePiece(pieceId, move)` of main.js (lines 80-169), animation and
captured-list bookkeeping stripped: relocate the piece, append the
destination to its history, promote on the far row, run the collapses of
every jumped entry with the landing square protected, then either stay
in a multi-jump (same turn, piece selected) when further jumps exist or
switch the turn. -/
def movePiece (fuel : Nat) (gs : GState) (pieceId : String) (mv : Move) : Option GState :=
  match findPiece gs.pieces pieceId with
  | none => none
  | some piece =>
    match piece.history.getLast? with
    | none => none
    | some fromPos =>
      let endPos : Pos := ⟨mv.endRow, mv.endCol⟩
      let b1 := boardSet gs.board fromPos none
      let b2 := boardSet b1 endPos (some pieceId)
      let crowned := (piece.player = Player.r ∧ mv.endRow = 0) ∨
                     (piece.player = Player.b ∧ mv.endRow = 7)
      let pieces1 := updatePiece gs.pieces pieceId (fun p =>
        { p with history := p.history ++ [endPos],
                 isKing := p.isKing || decide crowned })
      match mv.jumpedInfo with
      | none => some ⟨pieces1, b2, gs.turn.other, none⟩
      | some jumps =>
        if jumps.isEmpty then some ⟨pieces1, b2, gs.turn.other, none⟩
        else
          match processJumps fuel jumps ⟨pieces1, b2⟩ endPos with
          | none => none
          | some st1 =>
            match getPossibleMoves pieceId st1.pieces st1.board with
            | none => none
            | some ms =>
              let furtherJumps := ms.filter (fun m => m.jumpedInfo.isSome)
              if furtherJumps.isEmpty then some ⟨st1.pieces, st1.board, gs.turn.other, none⟩
              else some ⟨st1.pieces, st1.board, gs.turn, some pieceId⟩

/-- A user intent, as main.js receives it: clicking the destination
square of a selected piece, or clicking the selected piece again to pass
an optional multi-jump. -/
inductive GAction where
  | move (pieceId : String) (endRow endCol : Int) : GAction
  | pass : GAction
deriving DecidableEq, Repr

/-- Whether a generated move carries a real (non-ghost) jumped entry, the
mandatory-capture test `m.jumpedInfo.some(j => !j.isGhost)` of the
callers. -/
def Move.mandatory (m : Move) : Bool :=
  match m.jumpedInfo with
  | none => false
  | some js => js.any (fun j => !j.isGhost)

/-- One orchestrator step (handleSquareClick and movePiece of main.js):
a move must target a square produced by `getPossibleMoves` for a piece
of the side to move (the selected piece while in a multi-jump); passing
is allowed only in a multi-jump with no mandatory further jump. -/
def stepGame (fuel : Nat) (gs : GState) : GAction → Option GState
  | .pass =>
    match gs.multi with
    | none => none
    | some sel =>
      match getPossibleMoves sel gs.pieces gs.board with
      | none => none
      | some ms =>
        let furtherJumps := ms.filter (fun m => m.jumpedInfo.isSome)
        if furtherJumps.any Move.mandatory then none
        else some ⟨gs.pieces, gs.board, gs.turn.other, none⟩
  | .move pid er ec =>
    match findPiece gs.pieces pid with
    | none => none
    | some piece =>
      if piece.player = gs.turn ∧ (gs.multi = none ∨ gs.multi = some pid) then
        match getPossibleMoves pid gs.pieces gs.board with
        | none => none
        | some ms =>
          match ms.find? (fun m => m.endRow = er ∧ m.endCol = ec) with
          | none => none
          | some mv => movePiece fuel gs pid mv
      else none

/-- Play a sequence of legal intents from a state; `none` as soon as one
is illegal or a collapse computation does not complete. -/
def runGame (fuel : Nat) : GState → List GAction → Option GState
  | gs, [] => some gs
  | gs, a :: rest =>
    match stepGame fuel gs a with
    | none => none
    | some gs' => runGame fuel gs' rest

/-- A playable square: on the board and dark (row + col odd). -/
def posPlayable (p : Pos) : Bool :=
  isValidSquare p.row p.col && (p.row + p.col) % 2 = 1

/-- The documented state invariant (spec sections 3 and 8): every piece
stands on the board where its history ends, no two pieces share a
current square, every board entry backs an existing piece at its current
square, and history entries are playable squares. -/
def invariantHolds (pieces : List Piece) (board : Board) : Bool :=
  pieces.all (fun p =>
    (match p.history.getLast? with
     | none => false
     | some cur => boardGet board cur = some p.id) &&
    p.history.all posPlayable) &&
  pieces.all (fun p => pieces.all (fun q =>
    p.id = q.id || p.history.getLast? ≠ q.history.getLast?)) &&
  board.all (fun e =>
    match findPiece pieces e.2 with
    | none => false
    | some p => p.history.getLast? = some e.1)


/-- `list[Math.floor(Math.random() * list.length)]` with the random draw
abstracted as an arbitrary natural number `k`. -/
def pickAt (l : List (Move × String)) (k : Nat) : Option (Move × String) :=
  l.get? (k % l.length)

/-- Gather `getPossibleMoves` over the considered pieces, each move
tagged with its pieceId (ai.js lines 22-26). -/
def collectAIMoves : List Piece → List Piece → Board → Option (List (Move × String))
  | [], _, _ => some []
  | p :: rest, pieces, board =>
    match getPossibleMoves p.id pieces board with
    | none => none
    | some ms =>
      match collectAIMoves rest pieces board with
      | none => none
      | some others => some (ms.map (fun m => (m, p.id)) ++ others)

/-- The pieces `getAIMove` considers (ai.js lines 17-19): the must-move
piece alone during a multi-jump, else all pieces of the acting side. -/
def aiPiecesToConsider (pieces : List Piece) (turn : Player)
    (mustMovePieceId : Option String) : List Piece :=
  match mustMovePieceId with
  | some mid =>
    match findPiece pieces mid with
    | some p => [p]
    | none => []
  | none => pieces.filter (fun p => p.player = turn)

/-- `getAIMove(gameState, mustMovePieceId)` of ai.js (lines 12-62).  The
`Math.random()` draws are abstracted: `kMand`, `kGhost` and `kReg` are
the index draws of the three buckets and `coin` is the
`Math.random() > 0.5` optional-ghost-jump flip.  The inner `Option` is
the returned move-or-null; the outer `Option` propagates a throwing
`getPossibleMoves`. -/
def getAIMove (pieces : List Piece) (board : Board) (turn : Player)
    (mustMovePieceId : Option String) (kMand kGhost kReg : Nat) (coin : Bool) :
    Option (Option (Move × String)) :=
  match collectAIMoves (aiPiecesToConsider pieces turn mustMovePieceId) pieces board with
  | none => none
  | some allMoves =>
    if allMoves.isEmpty then some none
    else
      let mandatoryJumps := allMoves.filter (fun m => m.1.mandatory)
      if !mandatoryJumps.isEmpty then some (pickAt mandatoryJumps kMand)
      else
        let ghostJumps := allMoves.filter (fun m => m.1.jumpedInfo.isSome)
        if mustMovePieceId.isSome && !ghostJumps.isEmpty then some (pickAt ghostJumps kGhost)
        else
          let regularMoves := allMoves.filter (fun m => m.1.jumpedInfo.isNone)
          if !ghostJumps.isEmpty && coin then some (pickAt ghostJumps kGhost)
          else if !regularMoves.isEmpty then some (pickAt regularMoves kReg)
          else if !ghostJumps.isEmpty then some (pickAt ghostJumps kGhost)
          else some none

/-! ## Helper lemmas -/

theorem findPiece_id {ps : List Piece} {pid : String} {p : Piece}
    (h : findPiece ps pid = some p) : p.id = pid := by
  induction ps with
  | nil => simp [findPiece] at h
  | cons q rest ih =>
    rw [findPiece] at h
    split at h
    · cases h
      assumption
    · exact ih h

theorem findPiece_updatePiece (ps : List Piece) (pid : String) (f : Piece → Piece)
    (hf : ∀ p : Piece, (f p).id = p.id) :
    findPiece (updatePiece ps pid f) pid = (findPiece ps pid).map f := by
  induction ps with
  | nil => rfl
  | cons q rest ih =>
    by_cases hq : q.id = pid
    · simp [updatePiece, findPiece, hq, hf]
    · simp only [updatePiece, List.map_cons, findPiece, if_neg hq]
      exact ih

theorem take_succ_getLast {l : List Pos} {i : Nat} {a : Pos} (h : l.get? i = some a) :
    (l.take (i + 1)).getLast? = some a := by
  have h2 : l[i]? = some a := by rwa [← List.get?_eq_getElem?]
  rw [List.take_succ, h2]
  simp

/-! ## Claim theorems -/

/-- C10: for a piece id absent from the piece collection the move
generator returns the empty list instead of failing. -/
theorem c10_unknown_piece_has_no_moves
    (pieceId : String) (pieces : List Piece) (board : Board)
    (h : findPiece pieces pieceId = none) :
    getPossibleMoves pieceId pieces board = some [] := by
  simp only [getPossibleMoves, h]

/-- Witness for C10 at a concrete input: the id `z9` is not a starting
piece and gets the empty move list. -/
theorem c10_witness :
    findPiece initGame.pieces "z9" = none ∧
    getPossibleMoves "z9" initGame.pieces initGame.board = some [] := by
  refine ⟨by decide, c10_unknown_piece_has_no_moves "z9" initGame.pieces initGame.board (by decide)⟩

/-- C6: a call with an exhausted history (`targetHistoryIndex < 0`) on a
still-existing piece whose current square it occupies captures the
piece: exactly one `remove` change, the piece deleted from the
collection, its square vacated, and the result is the same for every
fuel, so the branch is terminal. -/
theorem c6_exhausted_history_captures
    (n : Nat) (pieceId : String) (idx : Int) (st : CState) (prot : Option Pos)
    (piece : Piece) (cur : Pos)
    (hfind : findPiece st.pieces pieceId = some piece)
    (hidx : idx < 0)
    (hcur : piece.history.getLast? = some cur)
    (hocc : boardGet st.board cur = some pieceId) :
    triggerCollapse (n + 1) pieceId idx st prot =
      some (⟨erasePiece st.pieces pieceId, boardSet st.board cur none⟩,
            [Change.remove pieceId piece.player], [Msg.captureFailed pieceId]) := by
  have hid : piece.id = pieceId := findPiece_id hfind
  simp [triggerCollapse, hfind, hidx, collapseCapture, hcur, hid, hocc]

/-- Witness for C6: a lone piece with a one-entry history, asked to
retreat past its history. -/
theorem c6_witness :
    triggerCollapse 1 "p" (-1)
        ⟨[⟨"p", Player.r, false, [⟨5, 0⟩]⟩], [(⟨5, 0⟩, "p")]⟩ none =
      some (⟨[], []⟩, [Change.remove "p" Player.r], [Msg.captureFailed "p"]) := by
  have h := c6_exhausted_history_captures 0 "p" (-1)
    ⟨[⟨"p", Player.r, false, [⟨5, 0⟩]⟩], [(⟨5, 0⟩, "p")]⟩ none
    ⟨"p", Player.r, false, [⟨5, 0⟩]⟩ ⟨5, 0⟩ (by decide) (by decide) (by decide) (by decide)
  simpa using h

/-- C1: when the target history position equals the protected square the
resolver shows the interference message and retries the same piece at
`targetHistoryIndex - 1`; the changes are exactly those of the retry, so
no capture happens at this step (capture can only arise later from the
exhausted-history branch). -/
theorem c1_interference_retries_older_state
    (n : Nat) (pieceId : String) (idx : Int) (st : CState) (prot : Pos)
    (piece : Piece) (cur : Pos)
    (hfind : findPiece st.pieces pieceId = some piece)
    (hidx : ¬ idx < 0)
    (hcur : piece.history.getLast? = some cur)
    (htp : piece.history.get? idx.toNat = some prot) :
    triggerCollapse (n + 1) pieceId idx st (some prot) =
      (triggerCollapse n pieceId (idx - 1) st (some prot)).map (tagInterference pieceId) := by
  have htp2 : piece.history[idx.toNat]? = some prot := by rwa [← List.get?_eq_getElem?]
  simp [triggerCollapse, hfind, hidx, hcur, htp2]

/-- Witness for C1: a piece whose index-0 history entry is the protected
square; the retry reaches the exhausted-history branch and only then
captures. -/
theorem c1_witness :
    triggerCollapse 2 "p" 0
        ⟨[⟨"p", Player.r, false, [⟨4, 1⟩, ⟨3, 2⟩]⟩], [(⟨3, 2⟩, "p")]⟩ (some ⟨4, 1⟩) =
      (triggerCollapse 1 "p" (-1)
        ⟨[⟨"p", Player.r, false, [⟨4, 1⟩, ⟨3, 2⟩]⟩], [(⟨3, 2⟩, "p")]⟩ (some ⟨4, 1⟩)).map
        (tagInterference "p") := by
  exact c1_interference_retries_older_state 1 "p" 0
    ⟨[⟨"p", Player.r, false, [⟨4, 1⟩, ⟨3, 2⟩]⟩], [(⟨3, 2⟩, "p")]⟩ ⟨4, 1⟩
    ⟨"p", Player.r, false, [⟨4, 1⟩, ⟨3, 2⟩]⟩ ⟨3, 2⟩ (by decide) (by decide) (by decide) (by decide)

/-- A three-step history with the piece on its latest entry: the state
used to exercise a successful collapse to a mid-history index. -/
def threeStepState : CState :=
  ⟨[⟨"p", Player.r, false, [⟨5, 0⟩, ⟨4, 1⟩, ⟨3, 2⟩]⟩], [(⟨3, 2⟩, "p")]⟩

/-- C2, counterexample: a collapse to history index 1 succeeds (a `move`
change is produced) but leaves a TWO-entry history, not the claimed
single-entry history: `piece.history.slice(0, targetHistoryIndex + 1)`
keeps every entry up to the target index. -/
theorem c2_counterexample :
    (triggerCollapse 1 "p" 1 threeStepState none).map
        (fun r => (r.2.1, (findPiece r.1.pieces "p").map (fun p => p.history))) =
      some ([Change.move "p" 4 1], some [⟨5, 0⟩, ⟨4, 1⟩]) := by
  decide

/-- C2, amended: both success branches truncate with
`piece.history.slice(0, targetHistoryIndex + 1)`.  Directly onto a free
square, the resulting history is the first `targetHistoryIndex + 1`
entries of the history, whose last element is the position collapsed
to; after a successful cascade, the same truncation is applied to the
history as the cascade left it (so only the ghosts at indices after the
target are cleared — a single-entry result needs
`targetHistoryIndex = 0`). -/
theorem c2_success_truncates_to_target_index
    (n : Nat) (pieceId : String) (idx : Int) (st : CState) (prot : Option Pos)
    (piece : Piece) (cur tp : Pos)
    (hfind : findPiece st.pieces pieceId = some piece)
    (hidx : ¬ idx < 0)
    (hcur : piece.history.getLast? = some cur)
    (htp : piece.history.get? idx.toNat = some tp)
    (hprot : prot ≠ some tp) :
    (boardGet st.board tp = none →
      triggerCollapse (n + 1) pieceId idx st prot =
          some (applyCollapseFree st pieceId cur tp idx,
                [Change.move pieceId tp.row tp.col], []) ∧
        findPiece (applyCollapseFree st pieceId cur tp idx).pieces pieceId =
          some { piece with history := piece.history.take (idx.toNat + 1) } ∧
        (piece.history.take (idx.toNat + 1)).getLast? = some tp) ∧
    (∀ (occId : String) (occ : Piece) (st1 : CState) (ch1 : List Change) (ms1 : List Msg)
        (piece1 : Piece),
      boardGet st.board tp = some occId →
      occId ≠ pieceId →
      findPiece st.pieces occId = some occ →
      triggerCollapse n occId ((occ.history.length : Int) - 2) st prot = some (st1, ch1, ms1) →
      boardGet st1.board tp = none →
      findPiece st1.pieces pieceId = some piece1 →
      triggerCollapse (n + 1) pieceId idx st prot =
          some (applyCollapseCascaded st1 pieceId cur tp idx,
                ch1 ++ [Change.move pieceId tp.row tp.col], ms1) ∧
        findPiece (applyCollapseCascaded st1 pieceId cur tp idx).pieces pieceId =
          some { piece1 with history := piece1.history.take (idx.toNat + 1) }) := by
  have htp2 : piece.history[idx.toNat]? = some tp := by rwa [← List.get?_eq_getElem?]
  constructor
  · intro hfree
    refine ⟨?_, ?_, take_succ_getLast htp⟩
    · simp [triggerCollapse, hfind, hidx, hcur, htp2, hprot, hfree]
    · have hr := findPiece_updatePiece st.pieces pieceId
          (fun p => { p with history := p.history.take (idx.toNat + 1) }) (fun p => rfl)
      simp [applyCollapseFree, hr, hfind]
  · intro occId occ st1 ch1 ms1 piece1 hocc hne hfocc hcasc hfree1 hfp1
    constructor
    · simp [triggerCollapse, hfind, hidx, hcur, htp2, hprot, hocc, hne, hfocc, hcasc,
            afterCascade, hfree1]
    · have hr := findPiece_updatePiece st1.pieces pieceId
          (fun p => { p with history := p.history.take (idx.toNat + 1) }) (fun p => rfl)
      simp [applyCollapseCascaded, hr, hfp1]

/-- A collapse whose target is occupied: `a` retreating to `(5,2)` finds
`c` there, and `c` can itself retreat freely to `(6,1)`. -/
def cascadeState : CState :=
  ⟨[⟨"a", Player.r, false, [⟨5, 2⟩, ⟨4, 3⟩]⟩, ⟨"c", Player.r, false, [⟨6, 1⟩, ⟨5, 2⟩]⟩],
   [(⟨4, 3⟩, "a"), (⟨5, 2⟩, "c")]⟩

/-- Witness for C2's amended statement, exercising both branches: the
direct free-square success on `threeStepState` and the cascade success
on `cascadeState` (where the truncation applies to `a`'s post-cascade
history). -/
theorem c2_witness :
    (triggerCollapse 1 "p" 1 threeStepState none =
        some (applyCollapseFree threeStepState "p" ⟨3, 2⟩ ⟨4, 1⟩ 1,
              [Change.move "p" 4 1], []) ∧
      findPiece (applyCollapseFree threeStepState "p" ⟨3, 2⟩ ⟨4, 1⟩ 1).pieces "p" =
        some ⟨"p", Player.r, false, [⟨5, 0⟩, ⟨4, 1⟩]⟩ ∧
      (([⟨5, 0⟩, ⟨4, 1⟩, ⟨3, 2⟩] : List Pos).take 2).getLast? = some ⟨4, 1⟩) ∧
    (triggerCollapse 2 "a" 0 cascadeState none =
        some (applyCollapseCascaded
                ⟨[⟨"a", Player.r, false, [⟨5, 2⟩, ⟨4, 3⟩]⟩, ⟨"c", Player.r, false, [⟨6, 1⟩]⟩],
                 [(⟨6, 1⟩, "c"), (⟨4, 3⟩, "a")]⟩ "a" ⟨4, 3⟩ ⟨5, 2⟩ 0,
              [Change.move "c" 6 1, Change.move "a" 5 2], []) ∧
      findPiece (applyCollapseCascaded
                ⟨[⟨"a", Player.r, false, [⟨5, 2⟩, ⟨4, 3⟩]⟩, ⟨"c", Player.r, false, [⟨6, 1⟩]⟩],
                 [(⟨6, 1⟩, "c"), (⟨4, 3⟩, "a")]⟩ "a" ⟨4, 3⟩ ⟨5, 2⟩ 0).pieces "a" =
        some ⟨"a", Player.r, false, [⟨5, 2⟩]⟩) := by
  constructor
  · have h := (c2_success_truncates_to_target_index 0 "p" 1 threeStepState none
      ⟨"p", Player.r, false, [⟨5, 0⟩, ⟨4, 1⟩, ⟨3, 2⟩]⟩ ⟨3, 2⟩ ⟨4, 1⟩
      (by decide) (by decide) (by decide) (by decide) (by decide)).1 (by decide)
    simpa using h
  · have h := (c2_success_truncates_to_target_index 1 "a" 0 cascadeState none
      ⟨"a", Player.r, false, [⟨5, 2⟩, ⟨4, 3⟩]⟩ ⟨4, 3⟩ ⟨5, 2⟩
      (by decide) (by decide) (by decide) (by decide) (by decide)).2
      "c" ⟨"c", Player.r, false, [⟨6, 1⟩, ⟨5, 2⟩]⟩
      ⟨[⟨"a", Player.r, false, [⟨5, 2⟩, ⟨4, 3⟩]⟩, ⟨"c", Player.r, false, [⟨6, 1⟩]⟩],
       [(⟨6, 1⟩, "c"), (⟨4, 3⟩, "a")]⟩
      [Change.move "c" 6 1] [] ⟨"a", Player.r, false, [⟨5, 2⟩, ⟨4, 3⟩]⟩
      (by decide) (by decide) (by decide) (by decide) (by decide) (by decide)
    simpa using h

/-- C3, counterexample: the resolver does not leave the caller's state
unchanged — after a successful collapse the returned (mutated) piece
collection and board differ from the ones passed in. -/
theorem c3_counterexample :
    (triggerCollapse 1 "p" 1 threeStepState none).map (fun r => r.1) ≠
        some threeStepState ∧
      (triggerCollapse 1 "p" 1 threeStepState none).map (fun r => r.1.board) =
        some [(⟨4, 1⟩, "p")] := by
  decide

/-- C3, amended: the resolver mutates the state it is given and returns
the updated state next to the events; in the direct-success branch the
board loses the piece from its current square, gains it at the target,
and the stored piece object keeps only its first `targetHistoryIndex + 1`
history entries. -/
theorem c3_success_state_update
    (n : Nat) (pieceId : String) (idx : Int) (st : CState) (prot : Option Pos)
    (piece : Piece) (cur tp : Pos)
    (hfind : findPiece st.pieces pieceId = some piece)
    (hidx : ¬ idx < 0)
    (hcur : piece.history.getLast? = some cur)
    (htp : piece.history.get? idx.toNat = some tp)
    (hprot : prot ≠ some tp)
    (hfree : boardGet st.board tp = none)
    (hocc : boardGet st.board cur = some pieceId) :
    triggerCollapse (n + 1) pieceId idx st prot =
      some (⟨updatePiece st.pieces pieceId
               (fun p => { p with history := p.history.take (idx.toNat + 1) }),
             boardSet (boardSet st.board cur none) tp (some pieceId)⟩,
            [Change.move pieceId tp.row tp.col], []) := by
  have htp2 : piece.history[idx.toNat]? = some tp := by rwa [← List.get?_eq_getElem?]
  simp [triggerCollapse, hfind, hidx, hcur, htp2, hprot, hfree, applyCollapseFree, hocc]

/-- Witness for C3's amended statement on `threeStepState`. -/
theorem c3_witness :
    triggerCollapse 1 "p" 1 threeStepState none =
      some (⟨updatePiece threeStepState.pieces "p"
               (fun p => { p with history := p.history.take 2 }),
             boardSet (boardSet threeStepState.board ⟨3, 2⟩ none) ⟨4, 1⟩ (some "p")⟩,
            [Change.move "p" 4 1], []) := by
  exact c3_success_state_update 0 "p" 1 threeStepState none
    ⟨"p", Player.r, false, [⟨5, 0⟩, ⟨4, 1⟩, ⟨3, 2⟩]⟩ ⟨3, 2⟩ ⟨4, 1⟩
    (by decide) (by decide) (by decide) (by decide) (by decide) (by decide) (by decide)

/-- Two pieces that have swapped squares: black `p` sits on `(4,3)` with
previous square `(3,2)`, red `q` sits on `(3,2)` with previous square
`(4,3)`.  Histories are single forward diagonal steps and the occupancy
matches both current squares, so the state satisfies the documented data
model. -/
def swappedState : CState :=
  ⟨[⟨"p", Player.b, false, [⟨3, 2⟩, ⟨4, 3⟩]⟩, ⟨"q", Player.r, false, [⟨4, 3⟩, ⟨3, 2⟩]⟩],
   [(⟨4, 3⟩, "p"), (⟨3, 2⟩, "q")]⟩

/-- C7: the cascade recursion does not terminate on `swappedState`: a
collapse of `p` to its previous square cascades into `q`, whose collapse
cascades straight back into `p` with no state change in between, so the
resolver runs out of any fuel budget (the JavaScript recurses until the
stack overflows).  In particular the recursion depth is not bounded by
the number of pieces on the board. -/
theorem c7_swapped_cascade_never_terminates :
    ∀ n : Nat, triggerCollapse n "p" 0 swappedState none = none := by
  have key : ∀ n : Nat, triggerCollapse n "p" 0 swappedState none = none ∧
      triggerCollapse n "q" 0 swappedState none = none := by
    intro n
    induction n with
    | zero => exact ⟨rfl, rfl⟩
    | succ n ih =>
      constructor
      · have hstep : triggerCollapse (n + 1) "p" 0 swappedState none =
            (triggerCollapse n "q" 0 swappedState none).bind
              (afterCascade (triggerCollapse n) "p" 0 none ⟨4, 3⟩ ⟨3, 2⟩) := rfl
        rw [hstep, ih.2]
        rfl
      · have hstep : triggerCollapse (n + 1) "q" 0 swappedState none =
            (triggerCollapse n "p" 0 swappedState none).bind
              (afterCascade (triggerCollapse n) "q" 0 none ⟨3, 2⟩ ⟨4, 3⟩) := rfl
        rw [hstep, ih.1]
        rfl
  exact fun n => (key n).1

/-- The orchestrator state at game start: the initial layout, red to
move, no multi-jump pending. -/
def initialGState : GState := ⟨initGame.pieces, initGame.board, Player.r, none⟩

/-- A 14-intent legal game from the start (each intent is accepted by
`stepGame`, i.e. targets a generated move of the side to move): four red
and black developing moves, a real jump by `b12` over `r3`, a ghost jump
by `r4` over a ghost of `b12`, more developing moves, and finally a
ghost jump by `b7` over the ghost of `r4` at `(2,5)`.  The final jump
makes the collapse of `r4` cascade through `b12` back into `r4` itself,
after which the stale-square write of gameLogic.js line 78 vacates
`b8`'s square and leaves `r4` registered on two squares. -/
def c5Actions : List GAction :=
  [.move "r4" 4 7, .move "b11" 3 4, .move "r8" 5 6, .move "b12" 3 6,
   .move "r3" 4 5, .move "b12" 5 4, .move "r4" 2 5, .move "b12" 3 6,
   .move "r2" 4 1, .move "b12" 4 7, .move "r2" 3 2, .move "b8" 2 7,
   .move "r4" 1 6, .move "b7" 3 6]

set_option maxRecDepth 10000 in
/-- C5: the occupancy invariant fails in a reachable state: running the
legal intents of `c5Actions` from the initial state succeeds and ends in
a state where `invariantHolds` is `false` (piece `b8` still exists but
its current square was vacated, and `r4` is registered on two board
squares at once). -/
theorem c5_invariant_fails_in_reachable_state :
    (runGame 100 initialGState c5Actions).map (fun gs => invariantHolds gs.pieces gs.board) =
      some false := by
  decide

set_option maxRecDepth 10000 in
/-- The concrete damage behind C5: in the final state of `c5Actions`,
piece `b8` exists with current square `(1,6)` while the board holds
nothing there, and `r4` occupies both `(2,5)` and `(4,7)`. -/
theorem c5_final_state_damage :
    (runGame 100 initialGState c5Actions).map (fun gs =>
        ((findPiece gs.pieces "b8").map (fun p => p.history.getLast?),
         boardGet gs.board ⟨1, 6⟩, boardGet gs.board ⟨2, 5⟩, boardGet gs.board ⟨4, 7⟩,
         (findPiece gs.pieces "r4").map (fun p => p.history.getLast?))) =
      some (some (some ⟨1, 6⟩), none, some "r4", some "r4", some (some ⟨4, 7⟩)) := by
  rfl

/-- A jump whose jumped set is nonempty and all-ghost (an optional ghost
jump). -/
def Move.ghostOnlyJump (m : Move) : Bool :=
  match m.jumpedInfo with
  | none => false
  | some js => !js.isEmpty && js.all (fun j => j.isGhost)

theorem Move.ghostOnlyJump_not_mandatory {m : Move} (h : m.ghostOnlyJump = true) :
    m.mandatory = false := by
  unfold Move.ghostOnlyJump at h
  unfold Move.mandatory
  cases hj : m.jumpedInfo with
  | none => rfl
  | some js =>
    rw [hj] at h
    simp only [Bool.and_eq_true, List.all_eq_true] at h
    simp only [List.any_eq_false]
    intro j hjm
    simp [h.2 j hjm]

theorem dirCandidates_buckets
    {piece : Piece} {pieces : List Piece} {board : Board} {pos : Pos} {d : Int × Int}
    {r g rg : List Move}
    (h : dirCandidates piece pieces board pos d = some (r, g, rg)) :
    (∀ m ∈ r, m.mandatory = true) ∧ (∀ m ∈ g, m.ghostOnlyJump = true) ∧
    (∀ m ∈ rg, m.jumpedInfo = none) := by
  unfold dirCandidates at h
  dsimp only [] at h
  by_cases hv : (isValidSquare (pos.row + 2 * d.1) (pos.col + 2 * d.2) &&
      (boardGet board ⟨pos.row + 2 * d.1, pos.col + 2 * d.2⟩).isNone) = true
  · rw [if_pos hv] at h
    cases hja : jumpedAtSquare piece pieces board ⟨pos.row + d.1, pos.col + d.2⟩ with
    | none => rw [hja] at h; cases h
    | some js =>
      rw [hja] at h
      simp only [Option.map_some', Option.some.injEq] at h
      by_cases he : js.isEmpty = true
      · rw [if_pos he] at h
        cases h
        refine ⟨by simp, by simp, ?_⟩
        intro m hm
        split at hm <;> simp_all
      · rw [if_neg he] at h
        by_cases ha : js.any (fun j => !j.isGhost) = true
        · rw [if_pos ha] at h
          cases h
          refine ⟨?_, by simp, ?_⟩
          · intro m hm
            rw [List.mem_singleton] at hm
            subst hm
            simpa [Move.mandatory] using ha
          · intro m hm
            split at hm <;> simp_all
        · rw [if_neg ha] at h
          cases h
          refine ⟨by simp, ?_, ?_⟩
          · intro m hm
            rw [List.mem_singleton] at hm
            subst hm
            have ha2 : js.any (fun j => !j.isGhost) = false := by simpa using ha
            have hall : ∀ j ∈ js, j.isGhost = true := by
              intro j hj
              have := List.any_eq_false.mp ha2 j hj
              simpa using this
            have he2 : js.isEmpty = false := by simpa using he
            simpa [Move.ghostOnlyJump, he2, List.all_eq_true] using hall
          · intro m hm
            split at hm <;> simp_all
  · rw [if_neg hv] at h
    simp only [Option.map_some', Option.some.injEq] at h
    cases h
    refine ⟨by simp, by simp, ?_⟩
    intro m hm
    split at hm <;> simp_all

theorem collectMoves_buckets
    {piece : Piece} {pieces : List Piece} {board : Board} {pos : Pos}
    {ds : List (Int × Int)} {r g rg : List Move}
    (h : collectMoves piece pieces board pos ds = some (r, g, rg)) :
    (∀ m ∈ r, m.mandatory = true) ∧ (∀ m ∈ g, m.ghostOnlyJump = true) ∧
    (∀ m ∈ rg, m.jumpedInfo = none) := by
  induction ds generalizing r g rg with
  | nil =>
    rw [collectMoves] at h
    cases h
    exact ⟨by simp, by simp, by simp⟩
  | cons d ds ih =>
    rw [collectMoves] at h
    cases hd : dirCandidates piece pieces board pos d with
    | none => rw [hd] at h; cases h
    | some cur =>
      rw [hd] at h
      cases hrest : collectMoves piece pieces board pos ds with
      | none => rw [hrest] at h; cases h
      | some rest =>
        rw [hrest] at h
        cases h
        obtain ⟨h1, h2, h3⟩ := dirCandidates_buckets (by rw [hd])
        obtain ⟨h4, h5, h6⟩ := ih (by rw [hrest])
        refine ⟨?_, ?_, ?_⟩ <;> intro m hm <;> rw [List.mem_append] at hm
        · exact hm.elim (h1 m) (h4 m)
        · exact hm.elim (h2 m) (h5 m)
        · exact hm.elim (h3 m) (h6 m)

/-- C4: mandatory-capture precedence in the move generator, over the
full candidate buckets (`realJ`, `ghostJ`, `regular` as collected by
`collectMoves` over every direction).  When some candidate jump carries
a real (non-ghost) jumped entry, the returned list is exactly the
real-jump bucket and consists only of mandatory jumps — no regular move
and no ghost-only jump appears; otherwise the returned list is exactly
the ghost-only jumps followed by the regular moves (nothing is dropped
and ghost jumps are never forced over regular moves). -/
theorem c4_mandatory_jump_precedence
    (pieceId : String) (pieces : List Piece) (board : Board)
    (piece : Piece) (pos : Pos) (realJ ghostJ regular : List Move)
    (hfind : findPiece pieces pieceId = some piece)
    (hlast : piece.history.getLast? = some pos)
    (hc : collectMoves piece pieces board pos (directionsFor piece) = some (realJ, ghostJ, regular)) :
    ((∃ m ∈ realJ ++ ghostJ ++ regular, m.mandatory = true) →
        getPossibleMoves pieceId pieces board = some realJ ∧
        ∀ m ∈ realJ, m.mandatory = true) ∧
    ((∀ m ∈ realJ ++ ghostJ ++ regular, m.mandatory = false) →
        getPossibleMoves pieceId pieces board = some (ghostJ ++ regular) ∧
        (∀ m ∈ ghostJ, m.ghostOnlyJump = true) ∧
        (∀ m ∈ regular, m.jumpedInfo = none)) := by
  obtain ⟨hR, hG, hRg⟩ := collectMoves_buckets hc
  have hgp : getPossibleMoves pieceId pieces board =
      some (if realJ.isEmpty then ghostJ ++ regular else realJ) := by
    simp only [getPossibleMoves, hfind, hlast, hc]
  constructor
  · rintro ⟨m, hm, hmand⟩
    have hmr : m ∈ realJ := by
      rcases List.mem_append.mp hm with h1 | h4
      · rcases List.mem_append.mp h1 with h2 | h3
        · exact h2
        · rw [Move.ghostOnlyJump_not_mandatory (hG m h3)] at hmand
          cases hmand
      · rw [show m.mandatory = false from by simp [Move.mandatory, hRg m h4]] at hmand
        cases hmand
    have hne : realJ.isEmpty = false := by
      cases realJ with
      | nil => simp at hmr
      | cons a t => simp
    refine ⟨by rw [hgp]; simp [hne], hR⟩
  · intro hall
    have hre : realJ = [] := by
      cases realJ with
      | nil => rfl
      | cons a t =>
        have h1 : a.mandatory = true := hR a (by simp)
        have h2 : a.mandatory = false := hall a (by simp)
        rw [h1] at h2
        cases h2
    subst hre
    exact ⟨by rw [hgp]; simp, hG, hRg⟩

/-- A two-piece state where red `r1` has a mandatory jump over black
`b1` onto the free square `(3,2)`. -/
def mandatoryJumpState : CState :=
  ⟨[⟨"r1", Player.r, false, [⟨5, 0⟩]⟩, ⟨"b1", Player.b, false, [⟨4, 1⟩]⟩],
   [(⟨5, 0⟩, "r1"), (⟨4, 1⟩, "b1")]⟩

/-- Witness for C4 on `mandatoryJumpState`: the candidate buckets are
one real jump and nothing else, a mandatory candidate exists, and the
returned list is exactly the real-jump bucket, all mandatory. -/
theorem c4_witness :
    getPossibleMoves "r1" mandatoryJumpState.pieces mandatoryJumpState.board =
        some [⟨3, 2, some [⟨"b1", false, 0⟩]⟩] ∧
      ([(⟨3, 2, some [⟨"b1", false, 0⟩]⟩ : Move)].all Move.mandatory) = true := by
  have h := (c4_mandatory_jump_precedence "r1" mandatoryJumpState.pieces mandatoryJumpState.board
      ⟨"r1", Player.r, false, [⟨5, 0⟩]⟩ ⟨5, 0⟩ [⟨3, 2, some [⟨"b1", false, 0⟩]⟩] [] []
      (by decide) (by decide) (by decide)).1
    ⟨⟨3, 2, some [⟨"b1", false, 0⟩]⟩, by decide, by decide⟩
  exact ⟨h.1, List.all_eq_true.mpr h.2⟩

/-- C8: the win-condition checker, characterized case by case: red
having no pieces returns black; otherwise black having no pieces
returns red; otherwise, with the side to move having no legal move
across its pieces the opponent is returned (stalemate is a loss), and
with a move available nobody wins yet. -/
theorem c8_checkWinCondition_cases (pieces : List Piece) (turn : Player) (board : Board) :
    (pieces.filter (fun p => p.player = Player.r) = [] →
        checkWinCondition pieces turn board = some (some Player.b)) ∧
    (pieces.filter (fun p => p.player = Player.r) ≠ [] →
        pieces.filter (fun p => p.player = Player.b) = [] →
        checkWinCondition pieces turn board = some (some Player.r)) ∧
    (pieces.filter (fun p => p.player = Player.r) ≠ [] →
        pieces.filter (fun p => p.player = Player.b) ≠ [] →
        ∀ hm : Bool,
          anyHasMoves
            (if turn = Player.r then pieces.filter (fun p => p.player = Player.r)
             else pieces.filter (fun p => p.player = Player.b)) pieces board = some hm →
          checkWinCondition pieces turn board = some (if hm then none else some turn.other)) := by
  refine ⟨fun hr => ?_, fun hr hb => ?_, fun hr hb hm hmoves => ?_⟩
  · simp [checkWinCondition, hr]
  · simp [checkWinCondition, List.length_eq_zero, hr, hb]
  · simp [checkWinCondition, List.length_eq_zero, hr, hb, hmoves]

/-- A state where red is stalemated: the lone red piece is blocked on
both diagonals (one leaves the board, the other is occupied with the
jump landing square also occupied). -/
def stalemateState : CState :=
  ⟨[⟨"r1", Player.r, false, [⟨5, 0⟩]⟩, ⟨"b1", Player.b, false, [⟨4, 1⟩]⟩,
    ⟨"b2", Player.b, false, [⟨3, 2⟩]⟩],
   [(⟨5, 0⟩, "r1"), (⟨4, 1⟩, "b1"), (⟨3, 2⟩, "b2")]⟩

/-- Witness for C8 on `stalemateState`: red to move has pieces but no
moves, so black wins. -/
theorem c8_witness :
    checkWinCondition stalemateState.pieces Player.r stalemateState.board =
      some (some Player.b) := by
  have h := (c8_checkWinCondition_cases stalemateState.pieces Player.r stalemateState.board).2.2
    (by decide) (by decide) false (by decide)
  simpa [Player.other] using h

theorem pickAt_mem {l : List (Move × String)} (h : l.isEmpty = false) (k : Nat) :
    ∃ x, pickAt l k = some x ∧ x ∈ l := by
  have hlen : 0 < l.length := by
    cases l with
    | nil => simp at h
    | cons a t => simp
  have hk : k % l.length < l.length := Nat.mod_lt _ hlen
  exact ⟨l.get ⟨k % l.length, hk⟩, by rw [pickAt, List.get?_eq_get hk], List.get_mem _ _ hk⟩

/-- C9: whenever the candidate moves of the selector contain a mandatory
(real-piece) jump, the selector returns a move, and that move is one of
the mandatory jumps — never a ghost-only jump or a regular move. -/
theorem c9_ai_prefers_mandatory_jumps
    (pieces : List Piece) (board : Board) (turn : Player) (mm : Option String)
    (kM kG kR : Nat) (coin : Bool) (allMoves : List (Move × String))
    (hall : collectAIMoves (aiPiecesToConsider pieces turn mm) pieces board = some allMoves)
    (hmand : (allMoves.filter (fun m => m.1.mandatory)).isEmpty = false) :
    (getAIMove pieces board turn mm kM kG kR coin).elim False (fun r =>
      r.elim False (fun mv =>
        mv ∈ allMoves.filter (fun m => m.1.mandatory) ∧ mv.1.mandatory = true)) := by
  have hne : allMoves.isEmpty = false := by
    cases allMoves with
    | nil => simp at hmand
    | cons a t => simp
  obtain ⟨x, hx, hxm⟩ := pickAt_mem hmand kM
  have hres : getAIMove pieces board turn mm kM kG kR coin = some (some x) := by
    unfold getAIMove
    rw [hall]
    simp only [hne, Bool.false_eq_true, if_false, hmand, Bool.not_false, if_true, hx]
  rw [hres]
  exact ⟨hxm, (List.mem_filter.mp hxm).2⟩

/-- Witness for C9 on `mandatoryJumpState`: red to move, the mandatory
jump over `b1` is selected for every random draw (here draw 5). -/
theorem c9_witness :
    (getAIMove mandatoryJumpState.pieces mandatoryJumpState.board Player.r none 5 0 0 true).elim
      False (fun r => r.elim False (fun mv =>
        mv ∈ ([((⟨3, 2, some [⟨"b1", false, 0⟩]⟩ : Move), "r1")].filter (fun m => m.1.mandatory)) ∧
        mv.1.mandatory = true)) := by
  exact c9_ai_prefers_mandatory_jumps mandatoryJumpState.pieces mandatoryJumpState.board
    Player.r none 5 0 0 true [(⟨3, 2, some [⟨"b1", false, 0⟩]⟩, "r1")] (by decide) (by decide)
